import Mathlib

/-!
Shallow embedding of the kodiak server's chat and arena-handoff core
(`src/server/src/service/chat_repo.rs` and
`src/server/src/service/arena_context.rs`).

Machine integers are modelled as `Nat` with explicit bounds where overflow
or checked arithmetic matters (`u32`, `u16`).  Panics and fatal contract
violations are modelled as `Option`/`none`; recoverable domain errors as
`Except String`.  Side effects (outbound plasma requests, metric bumps) are
made explicit in return values.  Types of the repository that are outside
the excerpted files (`ClientStatus`, the regulator, `ChatInbox`,
`PlayerId::nth_client`, session/metric data) are modelled from the spec;
each such definition says so in its doc comment.
-/

set_option autoImplicit false

namespace Kodiak

/-- IP addresses, abstracted to naturals (only equality is used). -/
abbrev Ip := Nat

/-- Per-arena player identifier (`PlayerId`), abstracted to naturals. -/
abbrev PlayerId := Nat

/-- Index of a message in a client's inbox (`MessageNumber`). -/
abbrev MessageNumber := Nat

/-- Modelled from the spec: the occupancy regulator tracks whether the
player is currently an active occupant (joined/active/leaving).
`isActive` is what `regulator.active()` returns; `leavingNow` records that
`leave_now()` was called (the player remains an occupant while leaving). -/
structure Regulator where
  isActive : Bool
  leavingNow : Bool
  deriving DecidableEq

/-- Modelled from the spec: `regulator.leave_now()` marks the occupant as
leaving now. -/
def Regulator.leaveNow (r : Regulator) : Regulator :=
  { r with leavingNow := true }

/-- Modelled from the spec (section 3 / 4.1): the per-client connection
state machine `ClientStatus`.  Instants are `Nat` milliseconds; observer
handles are abstracted to `Nat`; gameplay activity data to `Option Nat`. -/
inductive ClientStatus where
  | pending (expiry : Nat)
  | connected (observer : Nat) (active : Option Nat)
  | limbo (expiry : Nat)
  | redirected (expiry : Nat) (serverId : Nat) (idToken : Option Nat)
      (observer : Option Nat) (active : Option Nat) (sendClose : Bool)
  | leavingLimbo
  deriving DecidableEq

/-- Chat message payload (`ChatMessage`): either raw text or the synthetic
welcome message. -/
inductive ChatMessage where
  | raw (message : String)
  | welcome (serverNumber : Nat) (arenaId : Nat)
  deriving DecidableEq

/-- `MessageDto` with the fields the excerpted code reads or writes. -/
structure MessageDto where
  pAlias : String
  visitorId : Option Nat
  teamName : Option String
  authority : Bool
  authentic : Bool
  message : ChatMessage
  whisper : Bool
  deriving DecidableEq

/-- `MessageAttribution`: sender identity retained server-side only. -/
structure MessageAttribution where
  chatId : Nat
  senderIp : Ip
  deriving DecidableEq

/-- Modelled from the spec: `ChatInbox` is a bounded queue of messages
awaiting delivery, each stored with its optional attribution; `attribute n`
recovers the attribution of message number `n`.  The bound only evicts old
entries, so writing is modelled as appending. -/
structure ChatInbox where
  entries : List (MessageDto × Option MessageAttribution)
  deriving DecidableEq

/-- Modelled from the spec: writing a message into the inbox. -/
def ChatInbox.write (inbox : ChatInbox) (m : MessageDto)
    (a : Option MessageAttribution) : ChatInbox :=
  ⟨inbox.entries ++ [(m, a)]⟩

/-- Modelled from the spec: attribution lookup by message number. -/
def ChatInbox.attribute (inbox : ChatInbox) (n : MessageNumber) :
    Option MessageAttribution :=
  (inbox.entries.get? n).bind (fun e => e.2)

instance : EmptyCollection ChatInbox := ⟨⟨[]⟩⟩

/-- `ClientChatData`: muted IPs, inbox, and join-announcement marker.
The muted collection is a `HashSet`; it is modelled as a duplicate-free
list (insertion checks membership first, mirroring `HashSet::insert`). -/
structure ClientChatData where
  muted : List Ip
  inbox : ChatInbox
  joinAnnounced : Option Nat
  deriving DecidableEq

/-- `ClientChatData::receive`: deliver a message unless the attributed
sender is muted; unattributed messages are always delivered. -/
def ClientChatData.receive (c : ClientChatData) (m : MessageDto)
    (attribution : Option MessageAttribution) : ClientChatData :=
  if (attribution.map (fun a => c.muted.contains a.senderIp)).getD false then
    c
  else
    { c with inbox := c.inbox.write m attribution }

/-- Modelled from the spec: `SessionData` carries the opaque visitor
identity, the account nickname consulted by `nick_name()`, and the
session claims backing the `moderator()` / `admin()` privilege queries. -/
structure SessionData where
  visitorId : Option Nat
  nickName : Option String
  moderatorB : Bool
  adminB : Bool
  deriving DecidableEq

/-- Modelled from the spec: the client metric sub-state read by the
excerpted code (complaint flag, play start/stop timestamps). -/
structure ClientMetricData where
  complained : Bool
  playStarted : Option Nat
  playStopped : Option Nat
  deriving DecidableEq

/-- `PlayerClientData` with the fields the excerpted code uses. -/
structure PlayerClientData where
  token : Nat
  ipAddress : Ip
  session : SessionData
  chat : ClientChatData
  metrics : ClientMetricData
  status : ClientStatus
  reported : List Ip
  deriving DecidableEq

/-- Modelled from the spec: the `moderator()` privilege query, backed by
session claims. -/
def PlayerClientData.moderator (c : PlayerClientData) : Bool :=
  c.session.moderatorB

/-- Modelled from the spec: the `admin()` privilege query, backed by
session claims. -/
def PlayerClientData.admin (c : PlayerClientData) : Bool :=
  c.session.adminB

/-- `PlayerInner`: client-backed or bot-backed player payload. -/
inductive PlayerInner where
  | client (data : PlayerClientData)
  | bot
  deriving DecidableEq

/-- `Player` with the fields the excerpted code uses.  `aliveDurationMs`
models `alive_duration()` (derived from aliveness timestamps outside the
excerpt): `none` when the player never spawned. -/
structure Player where
  pAlias : String
  teamId : Option Nat
  regulator : Regulator
  inner : PlayerInner
  aliveDurationMs : Option Nat
  wasAlive : Bool
  wasEverAlive : Bool
  deriving DecidableEq

/-- `client()` / `client_mut()`: the client payload, if any. -/
def Player.client? (p : Player) : Option PlayerClientData :=
  match p.inner with
  | .client c => some c
  | .bot => none

/-- Replace the client payload (no-op for bots). -/
def Player.withClient (p : Player) (c : PlayerClientData) : Player :=
  match p.inner with
  | .client _ => { p with inner := .client c }
  | .bot => p

/-- The player repository, modelled as an association list keyed by
`PlayerId` (`PlayerRepo` is an indexed exclusively-owned collection). -/
abbrev PlayerRepo := List (PlayerId × Player)

/-- Repository lookup (`players.get`). -/
def repoGet? (repo : PlayerRepo) (pid : PlayerId) : Option Player :=
  (repo.find? (fun e => e.1 == pid)).map (fun e => e.2)

/-- Repository membership (`players.contains`). -/
def repoContains (repo : PlayerRepo) (pid : PlayerId) : Bool :=
  (repoGet? repo pid).isSome

/-- Apply `f` to the player stored at `pid`. -/
def repoUpdate (repo : PlayerRepo) (pid : PlayerId) (f : Player → Player) :
    PlayerRepo :=
  repo.map (fun e => if e.1 = pid then (e.1, f e.2) else e)

/-- Replace the client payload of the player stored at `pid`. -/
def repoSetClient (repo : PlayerRepo) (pid : PlayerId)
    (c : PlayerClientData) : PlayerRepo :=
  repoUpdate repo pid (fun p => p.withClient c)

/-- Insertion (`players.insert`). -/
def repoInsert (repo : PlayerRepo) (pid : PlayerId) (p : Player) :
    PlayerRepo :=
  (pid, p) :: repo

/-- `ChatUpdate` variants produced by the excerpted code. -/
inductive ChatUpdate where
  | muted (n : MessageNumber)
  | unmuted (n : MessageNumber)
  | playerRestricted (n : MessageNumber)
  | safeModeSet (minutes : Nat)
  | slowModeSet (minutes : Nat)
  | sent
  deriving DecidableEq

instance : DecidableEq (Except String ChatUpdate) := fun a b =>
  match a, b with
  | .ok x, .ok y =>
    if h : x = y then .isTrue (by rw [h]) else .isFalse (by simp [h])
  | .error x, .error y =>
    if h : x = y then .isTrue (by rw [h]) else .isFalse (by simp [h])
  | .ok _, .error _ => .isFalse (by simp)
  | .error _, .ok _ => .isFalse (by simp)

/-- `ChatRecipient` of an outbound `SendChat` plasma request. -/
inductive ChatRecipient where
  | none
  | broadcast
  | teamOf (pid : PlayerId)
  deriving DecidableEq

/-- Outbound plasma requests issued by the excerpted code, with the fields
relevant to the claims. -/
inductive PlasmaReq where
  | sendChatReq (recipient : ChatRecipient) (timestamp : Nat)
      (message : List Char) (ipAddress : Ip) (visitorId : Option Nat)
      (pAlias : String) (authentic : Bool)
  | moderateAbuse (pAlias : String) (chatId : Nat) (visitorId : Nat)
  | moderateChat (pAlias : String) (realmId : Nat) (visitorId : Nat)
      (safeMode : Option Nat) (slowMode : Option Nat)
  | ackServerMessage (recipient : Nat) (oldArenaId : Nat)
      (oldPlayerId : PlayerId) (oldToken : Nat) (arenaId : Nat)
      (playerId : PlayerId) (token : Nat)
  deriving DecidableEq

/-- Metric counters bumped by the excerpted code. -/
structure MetricsState where
  abuseReports : Nat
  chats : Nat
  deriving DecidableEq

/-! Numeric string parsing, following Rust `str::parse` for unsigned
integers: an optional leading `+`, then one or more ASCII digits, and the
value must fit the integer width. -/

/-- Drop the optional leading `+` sign accepted by Rust integer parsing. -/
def dropPlus (cs : List Char) : List Char :=
  match cs with
  | c :: rest => if c = '+' then rest else c :: rest
  | [] => []

/-- Numeric value of a digit string (most significant first). -/
def digitsToNat (ds : List Char) : Nat :=
  ds.foldl (fun n c => n * 10 + (c.toNat - 48)) 0

/-- Rust `str::parse` for unsigned integers, without the width check. -/
def parseNatDigits (cs : List Char) : Option Nat :=
  let ds := dropPlus cs
  if ds ≠ [] ∧ ds.all Char.isDigit then some (digitsToNat ds) else none

/-- Rust `str::parse::<u32>()`. -/
def parseU32 (cs : List Char) : Option Nat :=
  (parseNatDigits cs).bind (fun n => if n < 4294967296 then some n else none)

/-- Rust `str::parse::<u16>()`. -/
def parseU16 (cs : List Char) : Option Nat :=
  (parseNatDigits cs).bind (fun n => if n < 65536 then some n else none)

/-- Rust `str::strip_suffix(c)`. -/
def stripSuffixChar (cs : List Char) (c : Char) : Option (List Char) :=
  if cs.getLast? = some c then some cs.dropLast else none

/-- `parse_minutes` from `try_execute_command`: `none`/`off` yield `0`;
a bare `u32`; a `u32` with an `m` suffix; a `u32` with an `h` suffix
multiplied by 60 with `checked_mul` (overflow makes the parse fail). -/
def parseMinutes (cs : List Char) : Option Nat :=
  if cs = String.toList "none" ∨ cs = String.toList "off" then
    some 0
  else
    match parseU32 cs with
    | some n => some n
    | none =>
      match (stripSuffixChar cs 'm').bind parseU32 with
      | some n => some n
      | none =>
        ((stripSuffixChar cs 'h').bind parseU32).bind
          (fun n => if n * 60 < 4294967296 then some (n * 60) else none)

/-- Rust `char::is_ascii_whitespace`. -/
def isAsciiWs (c : Char) : Bool :=
  c = ' ' ∨ c = '\t' ∨ c = '\n' ∨ c = Char.ofNat 12 ∨ c = '\r'

/-- Accumulator-based splitter implementing `split_ascii_whitespace`. -/
def splitAWAux : List Char → List Char → List (List Char)
  | [], acc => if acc.isEmpty then [] else [acc.reverse]
  | c :: rest, acc =>
    if isAsciiWs c then
      if acc.isEmpty then splitAWAux rest []
      else acc.reverse :: splitAWAux rest []
    else splitAWAux rest (c :: acc)

/-- Rust `str::split_ascii_whitespace`, as a list of words. -/
def splitAsciiWhitespace (cs : List Char) : List (List Char) :=
  splitAWAux cs []

/-! Chat repository operations (`ChatRepo`). -/

/-- `ChatRepo::sender_attribution`: resolve a message number in the
requester's inbox to its stored attribution. -/
def senderAttribution (repo : PlayerRepo) (reqPid : PlayerId)
    (n : MessageNumber) : Option MessageAttribution := do
  let p ← repoGet? repo reqPid
  let c ← p.client?
  c.chat.inbox.attribute n

/-- `ChatRepo::mute_player`.  Returns the updated repository and the
domain result; error results leave the repository unchanged, as in the
source where every error path returns before mutating. -/
def mutePlayer (repo : PlayerRepo) (reqPid : PlayerId) (n : MessageNumber) :
    PlayerRepo × Except String ChatUpdate :=
  match (senderAttribution repo reqPid n).map (fun a => a.senderIp) with
  | none => (repo, .error "unknown sender")
  | some muteIp =>
    match repoGet? repo reqPid with
    | none => (repo, .error "nonsense")
    | some p =>
      match p.client? with
      | none => (repo, .error "only clients can mute")
      | some c =>
        if 32 ≤ c.chat.muted.length then
          (repo, .error "too many muted")
        else if c.chat.muted.contains muteIp then
          (repo, .error "already muted")
        else
          (repoSetClient repo reqPid
            { c with chat := { c.chat with muted := muteIp :: c.chat.muted } },
           .ok (.muted n))

/-- `ChatRepo::unmute_player`.  Removal is unconditional; no error is
reported for an IP that was never muted. -/
def unmutePlayer (repo : PlayerRepo) (reqPid : PlayerId)
    (n : MessageNumber) : PlayerRepo × Except String ChatUpdate :=
  match (senderAttribution repo reqPid n).map (fun a => a.senderIp) with
  | none => (repo, .error "unknown sender")
  | some unmuteIp =>
    match repoGet? repo reqPid with
    | none => (repo, .error "nonsense")
    | some p =>
      match p.client? with
      | none => (repo, .error "only clients can unmute")
      | some c =>
        (repoSetClient repo reqPid
          { c with chat :=
            { c.chat with muted := c.chat.muted.filter (fun x => x != unmuteIp) } },
         .ok (.unmuted n))

/-- `ChatRepo::report`.  `dbg` models `cfg!(debug_assertions)`.  Returns
the updated repository, metrics, emitted plasma requests, and the domain
result. -/
def report (dbg : Bool) (repo : PlayerRepo) (metrics : MetricsState)
    (reqPid : PlayerId) (n : MessageNumber) :
    PlayerRepo × MetricsState × List PlasmaReq × Except String ChatUpdate :=
  match senderAttribution repo reqPid n with
  | none => (repo, metrics, [], .error "unknown sender")
  | some attribution =>
    match repoGet? repo reqPid with
    | none => (repo, metrics, [], .error "nonsense")
    | some p =>
      let aliveLt60 := (p.aliveDurationMs.map (fun d => decide (d < 60000))).getD true
      match p.client? with
      | none => (repo, metrics, [], .error "not a real player")
      | some c =>
        if c.ipAddress = attribution.senderIp ∧ ¬(c.admin = true ∧ dbg = true) then
          (repo, metrics, [], .error "cannot restrict own IP")
        else
          let step : Except String (List Ip) :=
            if c.moderator then .ok c.reported
            else if aliveLt60 then .error "report requirements unmet"
            else if 6 ≤ c.reported.length then .error "too many reports"
            else if c.reported.contains attribution.senderIp then
              .error "already reported"
            else .ok (attribution.senderIp :: c.reported)
          match step with
          | .error e => (repo, metrics, [], .error e)
          | .ok reported' =>
            let metrics' :=
              { metrics with abuseReports := metrics.abuseReports + 1 }
            let reqs :=
              match c.session.visitorId with
              | some v => [PlasmaReq.moderateAbuse p.pAlias attribution.chatId v]
              | none => []
            (repoSetClient repo reqPid { c with reported := reported' },
             metrics', reqs, .ok (.playerRestricted n))

/-- `ChatRepo::set_safe_mode`: moderator-only; forwards a moderation
request when the requester has a visitor id. -/
def setSafeMode (p : Player) (minutes : Nat) (realmId : Nat) :
    List PlasmaReq × Except String ChatUpdate :=
  match p.client? with
  | none => ([], .error "not a real player")
  | some c =>
    if ¬ c.moderator then ([], .error "permission denied")
    else
      let reqs :=
        match c.session.visitorId with
        | some v => [PlasmaReq.moderateChat p.pAlias realmId v (some minutes) none]
        | none => []
      (reqs, .ok (.safeModeSet minutes))

/-- `ChatRepo::set_slow_mode`: moderator-only; forwards a moderation
request when the requester has a visitor id. -/
def setSlowMode (p : Player) (minutes : Nat) (realmId : Nat) :
    List PlasmaReq × Except String ChatUpdate :=
  match p.client? with
  | none => ([], .error "not a real player")
  | some c =>
    if ¬ c.moderator then ([], .error "permission denied")
    else
      let reqs :=
        match c.session.visitorId with
        | some v => [PlasmaReq.moderateChat p.pAlias realmId v none (some minutes)]
        | none => []
      (reqs, .ok (.slowModeSet minutes))

/-! Settings and the command interpreter. -/

/-- Model of `f32` values: NaN or a finite value, as a rational. -/
inductive F32 where
  | nan
  | val (q : Rat)
  deriving DecidableEq

/-- Whether the value is NaN (`f32::is_nan`). -/
def F32.isNanB : F32 → Bool
  | .nan => true
  | .val _ => false

/-- Rust `f32::clamp` on the non-NaN values produced here. -/
def F32.clampTo (x : F32) (lo hi : Rat) : F32 :=
  match x with
  | .nan => .nan
  | .val q => .val (min (max q lo) hi)

/-- Rust `(0.0..=10.0).contains(&x)`: false for NaN. -/
def F32.inAggressionRange : F32 → Bool
  | .nan => false
  | .val q => decide (0 ≤ q ∧ q ≤ 10)

/-- The engine part of `ArenaSettingsDto`. -/
structure SettingsDto where
  bots : Option Nat
  botAggression : Option F32
  deriving DecidableEq

/-- The bot-count hard ceiling: 64 under `debug_assertions`, 1024 in
release builds. -/
def hardMax (dbg : Bool) : Nat :=
  if dbg then 64 else 1024

/-- `ArenaContext::set_settings`.  `isPublicDefault` models
`realm_id.is_public_default()`; `minTemp`/`maxTemp` the game constants
for temporary servers. -/
def setSettings (dbg isPublicDefault : Bool) (minTemp maxTemp : Nat)
    (s : SettingsDto) : SettingsDto :=
  let aggression :=
    (s.botAggression.filter (fun a => ¬ a.isNanB)).map (fun a => a.clampTo 0 10)
  let bots := s.bots.map (fun b =>
    min (if isPublicDefault then b else min (max b minTemp) maxTemp) (hardMax dbg))
  { bots := bots, botAggression := aggression }

/-- The game-specific hooks (`G : ArenaService`) consulted by `send_chat`
and `try_execute_command`.  `parseAggression` abstracts Rust `f32` string
parsing and `aggressionDisplay` the `bot_aggression()` display; neither
is the subject of any claim. -/
structure GameHooks where
  forceWhisper : PlayerId → Bool
  teamName : PlayerId → Option String
  teamMembers : PlayerId → Option (List PlayerId)
  chatCommand : List Char → PlayerId → Option String
  parseAggression : List Char → Option F32
  aggressionDisplay : Option F32 → String

/-- The `until!` macro body shared by the `/slow` and `/safe` branches of
`try_execute_command`. -/
def untilMode (slow : Bool) (args : List (List Char)) (p : Player)
    (realmId : Nat) : String × List PlasmaReq :=
  match args.head? with
  | none => ("missing number of minutes", [])
  | some arg =>
    match parseMinutes arg with
    | none => ("failed to parse argument as minutes", [])
    | some minutes =>
      let r := if slow then setSlowMode p minutes realmId
               else setSafeMode p minutes realmId
      match r with
      | (reqs, .ok _) => ("done", reqs)
      | (reqs, .error e) => (e, reqs)

/-- `ChatRepo::try_execute_command`: `none` when the message is not a
command (no leading `/`, or no first word after it); otherwise the textual
outcome, the updated settings, and the emitted plasma requests. -/
def tryExecuteCommand (dbg : Bool) (hooks : GameHooks) (realmId : Nat)
    (reqPid : PlayerId) (message : List Char) (p : Player)
    (botsCount : Nat) (settings : SettingsDto) :
    Option (String × SettingsDto × List PlasmaReq) :=
  match message with
  | '/' :: command =>
    (match splitAsciiWhitespace command with
    | [] => none
    | first :: args =>
      some <|
        if first = String.toList "slow" then
          let tr := untilMode true args p realmId
          (tr.1, settings, tr.2)
        else if first = String.toList "safe" then
          let tr := untilMode false args p realmId
          (tr.1, settings, tr.2)
        else if first = String.toList "bots" then
          match p.client? with
          | some c =>
            if dbg ∨ c.admin = true then
              match args.head? with
              | some count =>
                (match (parseU16 count).bind
                    (fun k => if k ≤ hardMax dbg then some k else none) with
                | some k => ("OK", { settings with bots := some k }, [])
                | none =>
                  if count = String.toList "default" then
                    ("OK", { settings with bots := none }, [])
                  else
                    ("error", settings, []))
              | none => (Nat.repr botsCount, settings, [])
            else ("permission denied", settings, [])
          | none => ("permission denied", settings, [])
        else if first = String.toList "bot_aggression" then
          match p.client? with
          | some c =>
            if dbg ∨ c.admin = true then
              match args.head? with
              | some arg =>
                (match (hooks.parseAggression arg).bind
                    (fun a => if a.inAggressionRange then some a else none) with
                | some a =>
                  ("OK", { settings with botAggression := some a }, [])
                | none =>
                  if arg = String.toList "default" then
                    ("OK", { settings with botAggression := none }, [])
                  else
                    ("error", settings, []))
              | none =>
                (hooks.aggressionDisplay settings.botAggression, settings, [])
            else ("permission denied", settings, [])
          | none => ("permission denied", settings, [])
        else
          ((hooks.chatCommand command reqPid).getD "unrecognized command",
           settings, []))
  | _ => none

/-! Chat sending. -/

/-- The timestamp assignment of `send_chat`:
`NonZeroUnixMillis::now().max(self.last_timestamp.add_millis(1))`. -/
def nextTimestamp (now lastTimestamp : Nat) : Nat :=
  max now (lastTimestamp + 1)

/-- The timestamps assigned by a sequence of sends with wall-clock
readings `clocks`, starting from the stored `last_timestamp`. -/
def chatTimestamps (lastTimestamp : Nat) : List Nat → List Nat
  | [] => []
  | now :: rest =>
    nextTimestamp now lastTimestamp :: chatTimestamps (nextTimestamp now lastTimestamp) rest

/-- `PlayerAlias::authority()`, an opaque display constant. -/
def authorityAlias : String := "Server"

/-- `COMPLAINT_MESSAGES` from `send_chat`. -/
def complaintMessages : List String := ["lag"]

/-- `COMPLAINT_PHRASES` from `send_chat`. -/
def complaintPhrases : List String :=
  ["game crashed", "game froze", "game broke", "game freezing", "hacks",
   "hacker", "hacking", "hacked", "cheats", "cheater", "cheating",
   "cheated", "i hate this game", "this game sucks", "game is bad",
   "game is awful", "game is pretty awful", "stupid game", "bad game",
   "dumb game", "worst game", "terrible game", "laggy", "lagged",
   "lagging", "not fun", "game isnt fun", "game isn't fun",
   "game is not fun", "fkin game", "dont like this game",
   "don't like this game", "dont like the game", "don't like the game",
   "lost connection", "network error", "network issue", "high latency",
   "low fps"]

/-- Rust `str::contains`: whether `needle` occurs as a contiguous run in
`hay`. -/
def containsRun (needle : List Char) : List Char → Bool
  | [] => needle.isEmpty
  | c :: t => needle.isPrefixOf (c :: t) || containsRun needle t

/-- The complaint scan of `send_chat`: the first 50 characters of the
message, ASCII-lowercased, matched against the fixed phrase list
(substring) and message list (whole-buffer equality); a flag already set
stays set. -/
def complaintScan (metrics : ClientMetricData) (message : List Char) : Bool :=
  if metrics.complained then true
  else
    let buffer := (message.take 50).map Char.toLower
    complaintPhrases.any (fun ph => containsRun (String.toList ph) buffer) ||
      complaintMessages.any (fun m => buffer == String.toList m)

/-- `nick_name().map(|n| n.as_str() == alias.as_str()).unwrap_or(false)`. -/
def authenticFor (c : PlayerClientData) (p : Player) : Bool :=
  (c.session.nickName.map (fun nick => nick == p.pAlias)).getD false

/-- The authoritative system reply injected into the sender's inbox after
a command: authority alias, raw text of the command outcome. -/
def commandReply (text : String) (whisper : Bool) : MessageDto :=
  { pAlias := authorityAlias, visitorId := none, teamName := none,
    authority := true, authentic := true,
    message := .raw text, whisper := whisper }

/-- The state and effects produced by one `send_chat` call. -/
structure SendChatResult where
  repo : PlayerRepo
  settings : SettingsDto
  lastTimestamp : Nat
  metrics : MetricsState
  reqs : List PlasmaReq
  result : Except String ChatUpdate

/-- `ChatRepo::send_chat`.  `now` is the wall-clock reading used for the
timestamp; quest events are not modelled; metric bumps are. -/
def sendChat (dbg : Bool) (hooks : GameHooks) (now : Nat)
    (arenaRealmId : Nat) (reqPid : PlayerId) (message : List Char)
    (whisper0 : Bool) (repo : PlayerRepo) (settings : SettingsDto)
    (botsCount : Nat) (lastTimestamp : Nat) (metrics : MetricsState) :
    SendChatResult :=
  match repoGet? repo reqPid with
  | none => ⟨repo, settings, lastTimestamp, metrics, [], .error "nonexistent player"⟩
  | some p =>
    if ¬ p.regulator.isActive then
      ⟨repo, settings, lastTimestamp, metrics, [], .error "inactive"⟩
    else
      let metrics := if p.client?.isSome then
          { metrics with chats := metrics.chats + 1 }
        else metrics
      let whisper := whisper0 || hooks.forceWhisper reqPid
      match tryExecuteCommand dbg hooks arenaRealmId reqPid message p botsCount settings with
      | some (text, settings', cmdReqs) =>
        (match p.client? with
        | some c =>
          let timestamp := nextTimestamp now lastTimestamp
          let sendReq := PlasmaReq.sendChatReq ChatRecipient.none timestamp
            message c.ipAddress c.session.visitorId p.pAlias (authenticFor c p)
          let c' := { c with chat := c.chat.receive (commandReply text whisper) none }
          ⟨repoSetClient repo reqPid c', settings', timestamp, metrics,
            cmdReqs ++ [sendReq], .ok .sent⟩
        | none =>
          -- The source hits `debug_assert!(false, "bot issued command")`
          -- and still reports the update as sent.
          ⟨repo, settings', lastTimestamp, metrics, cmdReqs, .ok .sent⟩)
      | none =>
        let team := hooks.teamMembers reqPid
        if whisper ∧ team = none then
          ⟨repo, settings, lastTimestamp, metrics, [], .error "no one to whisper to"⟩
        else
          match p.client? with
          | none => ⟨repo, settings, lastTimestamp, metrics, [], .error "not a client"⟩
          | some c =>
            let c' := { c with metrics :=
              { c.metrics with complained := complaintScan c.metrics message } }
            let timestamp := nextTimestamp now lastTimestamp
            let recipient := if whisper then ChatRecipient.teamOf reqPid
              else ChatRecipient.broadcast
            let sendReq := PlasmaReq.sendChatReq recipient timestamp message
              c'.ipAddress c'.session.visitorId p.pAlias (authenticFor c' p)
            ⟨repoSetClient repo reqPid c', settings, timestamp, metrics,
              [sendReq], .ok .sent⟩

/-- The recent-message ring (`HistoryBuffer<16>`): writing keeps the most
recent 16 entries. -/
def recentWrite (recent : List (MessageDto × Option MessageAttribution))
    (x : MessageDto × Option MessageAttribution) :
    List (MessageDto × Option MessageAttribution) :=
  let r := recent ++ [x]
  r.drop (r.length - 16)

/-- The per-player delivery step of `broadcast_message`: clients receive
the message with the attribution stripped when they are the sender
(`attribution.filter(|_| sender_player_id != Some(player_id))`); bots are
untouched. -/
def broadcastRecv (msg : MessageDto)
    (attribution : Option MessageAttribution) (senderPid : Option PlayerId)
    (pid : PlayerId) (p : Player) : Player :=
  match p.client? with
  | some c =>
    let attrib := attribution.filter (fun _ => decide (senderPid ≠ some pid))
    p.withClient { c with chat := c.chat.receive msg attrib }
  | none => p

/-- The per-tier iteration of `broadcast_message`. -/
def broadcastTier (msg : MessageDto)
    (attribution : Option MessageAttribution) (senderPid : Option PlayerId)
    (tier : PlayerRepo) : PlayerRepo :=
  tier.map (fun e => (e.1, broadcastRecv msg attribution senderPid e.1 e.2))

/-- `ChatRepo::broadcast_message` over the given tiers, plus the recent
ring.  Attribution is stripped when delivering to the sender itself. -/
def broadcastMessage (msg : MessageDto)
    (attribution : Option MessageAttribution) (tiers : List PlayerRepo)
    (senderPid : Option PlayerId) (saveRecent : Bool)
    (recent : List (MessageDto × Option MessageAttribution)) :
    List PlayerRepo × List (MessageDto × Option MessageAttribution) :=
  (tiers.map (broadcastTier msg attribution senderPid),
   if saveRecent then recentWrite recent (msg, attribution) else recent)

/-! Arena context: player handoff. -/

/-- The arena argument of `send_player_impl` (`ArenaQuery`): a specific
arena carrying its realm, or a non-specific query. -/
inductive ArenaQuery where
  | specific (realmId : Nat)
  | anyQuery
  deriving DecidableEq

/-- The realm test of `send_player_impl`:
`arena_id.specific().map(|s| s.realm_id != local).unwrap_or(true)`. -/
def realmDiffers (arenaQ : ArenaQuery) (localRealmId : Nat) : Bool :=
  match arenaQ with
  | .specific r => r != localRealmId
  | .anyQuery => true

/-- `RedirectedPlayer`: the serialized one-shot handoff payload. -/
structure RedirectedPlayer where
  oldPlayerId : PlayerId
  oldToken : Nat
  ipAddress : Ip
  session : SessionData
  chat : ClientChatData
  metrics : ClientMetricData
  deriving DecidableEq

/-- The chat clearing of `send_player_impl`: crossing a realm boundary
(or a non-specific destination) clears the inbox and join marker. -/
def redirectChat (arenaQ : ArenaQuery) (localRealmId : Nat)
    (chat : ClientChatData) : ClientChatData :=
  if realmDiffers arenaQ localRealmId then
    { chat with inbox := ⟨[]⟩, joinAnnounced := none }
  else chat

/-- The successful tail of `send_player_impl`, once `(observer, active)`
has been extracted from the old status: set the status to `Redirected`
with the bounded linger window, clear chat across realms, and build the
handoff payload from the resulting client state. -/
def sendOutcome (limboMs now localRealmId : Nat) (repo : PlayerRepo)
    (pid serverId : Nat) (arenaQ : ArenaQuery) (c : PlayerClientData)
    (observer active : Option Nat) : PlayerRepo × RedirectedPlayer :=
  let chat' := redirectChat arenaQ localRealmId c.chat
  let c' := { c with
    status := ClientStatus.redirected (now + max limboMs 1000) serverId
      none observer active true,
    chat := chat' }
  (repoSetClient repo pid c',
   ⟨pid, c.token, c.ipAddress, c.session, chat', c.metrics⟩)

/-- `ArenaContext::send_player_impl`.  `none` models a panic (nonexistent
player, bot, or an illegal `ClientStatus`).  `limboMs` models `G::LIMBO`
in milliseconds, `now` the current instant; quest events are not
modelled. -/
def sendPlayerImpl (limboMs now localRealmId : Nat) (repo : PlayerRepo)
    (pid : PlayerId) (serverId : Nat) (arenaQ : ArenaQuery) (_game : Bool) :
    Option (PlayerRepo × RedirectedPlayer) :=
  match repoGet? repo pid with
  | none => none
  | some p =>
    match p.client? with
    | none => none
    | some c =>
      match c.status with
      | .pending _ => none
      | .connected observer active =>
        some (sendOutcome limboMs now localRealmId repo pid serverId arenaQ c
          (some observer) active)
      | .limbo _ =>
        some (sendOutcome limboMs now localRealmId repo pid serverId arenaQ c
          none none)
      | .redirected _ _ _ _ _ _ => none
      | .leavingLimbo => none

/-- `ArenaContext::send_player`: additionally requires an active
regulator (else it panics), marks the regulator as leaving now, and
forwards to `send_player_impl` with a specific destination arena. -/
def sendPlayer (limboMs now localRealmId : Nat) (repo : PlayerRepo)
    (pid : PlayerId) (serverId : Nat) (destRealmId : Nat) :
    Option (PlayerRepo × RedirectedPlayer) :=
  match repoGet? repo pid with
  | none => none
  | some p =>
    if ¬ p.regulator.isActive then none
    else
      let repo' := repoUpdate repo pid
        (fun q => { q with regulator := q.regulator.leaveNow })
      sendPlayerImpl limboMs now localRealmId repo' pid serverId
        (.specific destRealmId) true

/-- Modelled from the spec: `PlayerId::nth_client i` is the `i`-th client
player identifier, `none` once the identifier space (of size `bound`) is
exhausted. -/
def nthClient (bound i : Nat) : Option PlayerId :=
  if i < bound then some i else none

/-- The allocation loop of `receive_player`: probe identifiers from `i`
upward; `none` models the `ran out of PlayerIds` panic when `nth_client`
is exhausted.  `fuel` bounds the recursion; `bound + 1` steps always
suffice to reach the end of the identifier space from zero. -/
def findFreeIdAux (bound : Nat) (repo : PlayerRepo) :
    Nat → Nat → Option PlayerId
  | _, 0 => none
  | i, fuel + 1 =>
    match nthClient bound i with
    | none => none
    | some pid =>
      if repoContains repo pid = true then findFreeIdAux bound repo (i + 1) fuel
      else some pid

/-- The identifier allocated by `receive_player`. -/
def findFreeId (bound : Nat) (repo : PlayerRepo) : Option PlayerId :=
  findFreeIdAux bound repo 0 (bound + 1)

/-- The client data reconstituted by `receive_player` from the handoff
payload: carried chat/metrics/session state, fresh token, `Limbo` status
with a 10-second expiry. -/
def receivedClient (newToken now : Nat) (rp : RedirectedPlayer) :
    PlayerClientData :=
  { token := newToken, ipAddress := rp.ipAddress, session := rp.session,
    chat := rp.chat, metrics := rp.metrics,
    status := .limbo (now + 10000), reported := [] }

/-- The player inserted by `receive_player`: the reconstituted client,
joined regulator, and the was-alive flags derived from the carried
metrics. -/
def receivedPlayer (newToken now : Nat) (rp : RedirectedPlayer) : Player :=
  { pAlias := "", teamId := none,
    regulator := ⟨true, false⟩, inner := .client (receivedClient newToken now rp),
    aliveDurationMs := none,
    wasAlive := rp.metrics.playStarted.isSome && rp.metrics.playStopped.isNone,
    wasEverAlive := rp.metrics.playStarted.isSome && rp.metrics.playStopped.isNone }

/-- `ArenaContext::receive_player`.  `bound` is the size of the client
identifier space, `newToken` models the random reconnection token
generated by `PlayerClientData::new`, and `none` models the
`ran out of PlayerIds` panic. -/
def receivePlayer (bound now newToken : Nat)
    (originServerId originArenaId localArenaId : Nat) (repo : PlayerRepo)
    (rp : RedirectedPlayer) :
    Option (PlayerId × PlayerRepo × List PlasmaReq) :=
  match findFreeId bound repo with
  | none => none
  | some pid =>
    let ack := PlasmaReq.ackServerMessage originServerId originArenaId
      rp.oldPlayerId rp.oldToken localArenaId pid newToken
    some (pid, repoInsert repo pid (receivedPlayer newToken now rp), [ack])

/-! Concrete fixtures used by witnesses and counterexamples. -/

/-- A sample session for concrete instances. -/
def sampleSession : SessionData :=
  { visitorId := some 9, nickName := some "alice",
    moderatorB := false, adminB := false }

/-- A sample connected client for concrete instances. -/
def sampleClient : PlayerClientData :=
  { token := 1, ipAddress := 10, session := sampleSession,
    chat := { muted := [], inbox := ⟨[]⟩, joinAnnounced := none },
    metrics := { complained := false, playStarted := none, playStopped := none },
    status := .connected 0 none, reported := [] }

/-- A sample active client-backed player for concrete instances. -/
def samplePlayer : Player :=
  { pAlias := "alice", teamId := none, regulator := ⟨true, false⟩,
    inner := .client sampleClient, aliveDurationMs := some 120000,
    wasAlive := true, wasEverAlive := true }

/-- Game hooks with inert game-specific behaviour, for concrete
instances. -/
def sampleHooks : GameHooks :=
  { forceWhisper := fun _ => false, teamName := fun _ => none,
    teamMembers := fun _ => none, chatCommand := fun _ _ => none,
    parseAggression := fun _ => none, aggressionDisplay := fun _ => "" }

/-- A sample handoff payload for concrete instances. -/
def sampleRedirected : RedirectedPlayer :=
  { oldPlayerId := 3, oldToken := 42, ipAddress := 10,
    session := sampleSession,
    chat := { muted := [], inbox := ⟨[]⟩, joinAnnounced := none },
    metrics := { complained := false, playStarted := some 5, playStopped := none } }

/-! Properties of the identifier allocation loop. -/

lemma findFreeIdAux_some (bound : Nat) (repo : PlayerRepo) (fuel : Nat) :
    ∀ (i pid : Nat), findFreeIdAux bound repo i fuel = some pid →
      i ≤ pid ∧ pid < bound ∧ repoContains repo pid = false ∧
      ∀ j, i ≤ j → j < pid → repoContains repo j = true := by
  induction fuel with
  | zero => intro i pid h; simp [findFreeIdAux] at h
  | succ fuel ih =>
    intro i pid h
    by_cases hib : i < bound
    · by_cases hc : repoContains repo i = true
      · rw [findFreeIdAux, nthClient, if_pos hib] at h
        simp only [hc, if_true] at h
        obtain ⟨h1, h2, h3, h4⟩ := ih (i + 1) pid h
        refine ⟨by omega, h2, h3, fun j hj1 hj2 => ?_⟩
        rcases Nat.eq_or_lt_of_le hj1 with heq | hlt
        · exact heq ▸ hc
        · exact h4 j hlt hj2
      · rw [findFreeIdAux, nthClient, if_pos hib] at h
        simp only [hc, if_false] at h
        obtain rfl : i = pid := Option.some.inj h
        exact ⟨Nat.le_refl _, hib, by simpa using hc, fun j hj1 hj2 => by omega⟩
    · rw [findFreeIdAux, nthClient, if_neg hib] at h
      simp at h

lemma findFreeIdAux_none (bound : Nat) (repo : PlayerRepo) (fuel : Nat) :
    ∀ i, bound ≤ i + fuel → findFreeIdAux bound repo i fuel = none →
      ∀ j, i ≤ j → j < bound → repoContains repo j = true := by
  induction fuel with
  | zero =>
    intro i hle _ j hj1 hj2
    omega
  | succ fuel ih =>
    intro i hle h j hj1 hj2
    by_cases hib : i < bound
    · by_cases hc : repoContains repo i = true
      · rw [findFreeIdAux, nthClient, if_pos hib] at h
        simp only [hc, if_true] at h
        rcases Nat.eq_or_lt_of_le hj1 with hFeq | hlt
        · exact hFeq ▸ hc
        · exact ih (i + 1) (by omega) h j hlt hj2
      · rw [findFreeIdAux, nthClient, if_pos hib] at h
        simp [hc] at h
    · omega

lemma findFreeId_some (bound : Nat) (repo : PlayerRepo) (pid : Nat)
    (h : findFreeId bound repo = some pid) :
    pid < bound ∧ repoContains repo pid = false ∧
      ∀ j, j < pid → repoContains repo j = true := by
  obtain ⟨_, h2, h3, h4⟩ := findFreeIdAux_some bound repo (bound + 1) 0 pid h
  exact ⟨h2, h3, fun j hj => h4 j (Nat.zero_le _) hj⟩

lemma findFreeId_of_free (bound : Nat) (repo : PlayerRepo)
    (h : ∃ j, j < bound ∧ repoContains repo j = false) :
    ∃ pid, findFreeId bound repo = some pid := by
  obtain ⟨j, hj, hfree⟩ := h
  match hcase : findFreeId bound repo with
  | some pid => exact ⟨pid, rfl⟩
  | none =>
    have := findFreeIdAux_none bound repo (bound + 1) 0 (by omega) hcase j
      (Nat.zero_le _) hj
    rw [this] at hfree
    exact absurd hfree (by simp)

lemma findFreeId_of_full (bound : Nat) (repo : PlayerRepo)
    (h : ∀ j, j < bound → repoContains repo j = true) :
    findFreeId bound repo = none := by
  match hcase : findFreeId bound repo with
  | none => rfl
  | some pid =>
    obtain ⟨h1, h2, _⟩ := findFreeId_some bound repo pid hcase
    rw [h pid h1] at h2
    exact absurd h2 (by simp)

/-- C2: `receive_player` assigns the lowest-numbered client `PlayerId` not
contained in the repository (linear probe from zero), inserts the
reconstituted player under that id and returns it; when every id of the
client identifier space is occupied it panics (`none`). -/
theorem receivePlayer_allocates_lowest (bound now newToken sid oaid laid : Nat)
    (repo : PlayerRepo) (rp : RedirectedPlayer) :
    ((∃ j, j < bound ∧ repoContains repo j = false) →
      ∃ pid,
        receivePlayer bound now newToken sid oaid laid repo rp =
          some (pid, repoInsert repo pid (receivedPlayer newToken now rp),
            [PlasmaReq.ackServerMessage sid oaid rp.oldPlayerId rp.oldToken
              laid pid newToken]) ∧
        pid < bound ∧ repoContains repo pid = false ∧
        (∀ j, j < pid → repoContains repo j = true) ∧
        repoGet? (repoInsert repo pid (receivedPlayer newToken now rp)) pid =
          some (receivedPlayer newToken now rp) ∧
        (receivedPlayer newToken now rp).client? =
          some (receivedClient newToken now rp) ∧
        (receivedClient newToken now rp).chat = rp.chat ∧
        (receivedClient newToken now rp).session = rp.session ∧
        (receivedClient newToken now rp).metrics = rp.metrics ∧
        (receivedClient newToken now rp).status = .limbo (now + 10000)) ∧
    ((∀ j, j < bound → repoContains repo j = true) →
      receivePlayer bound now newToken sid oaid laid repo rp = none) := by
  constructor
  · intro hfree
    obtain ⟨pid, hpid⟩ := findFreeId_of_free bound repo hfree
    obtain ⟨h1, h2, h3⟩ := findFreeId_some bound repo pid hpid
    refine ⟨pid, ?_, h1, h2, h3, ?_, rfl, rfl, rfl, rfl, rfl⟩
    · rw [receivePlayer, hpid]
    · simp [repoInsert, repoGet?]
  · intro hfull
    rw [receivePlayer, findFreeId_of_full bound repo hfull]

/-- Witness for C2: with ids 0 and 2 occupied the next reconstituted
player gets id 1, and a full identifier space (here of size 2) makes the
call panic. -/
theorem receivePlayer_allocates_lowest_witness :
    (∃ pid,
        receivePlayer 4 0 7 1 2 3 [(0, samplePlayer), (2, samplePlayer)]
            sampleRedirected =
          some (pid,
            repoInsert [(0, samplePlayer), (2, samplePlayer)] pid
              (receivedPlayer 7 0 sampleRedirected),
            [PlasmaReq.ackServerMessage 1 2 sampleRedirected.oldPlayerId
              sampleRedirected.oldToken 3 pid 7]) ∧
        pid < 4 ∧
        repoContains [(0, samplePlayer), (2, samplePlayer)] pid = false ∧
        (∀ j, j < pid →
          repoContains [(0, samplePlayer), (2, samplePlayer)] j = true) ∧
        repoGet?
          (repoInsert [(0, samplePlayer), (2, samplePlayer)] pid
            (receivedPlayer 7 0 sampleRedirected)) pid =
          some (receivedPlayer 7 0 sampleRedirected) ∧
        (receivedPlayer 7 0 sampleRedirected).client? =
          some (receivedClient 7 0 sampleRedirected) ∧
        (receivedClient 7 0 sampleRedirected).chat = sampleRedirected.chat ∧
        (receivedClient 7 0 sampleRedirected).session = sampleRedirected.session ∧
        (receivedClient 7 0 sampleRedirected).metrics = sampleRedirected.metrics ∧
        (receivedClient 7 0 sampleRedirected).status = .limbo 10000) ∧
    receivePlayer 2 0 7 1 2 3 [(0, samplePlayer), (1, samplePlayer)]
        sampleRedirected = none :=
  ⟨(receivePlayer_allocates_lowest 4 0 7 1 2 3
      [(0, samplePlayer), (2, samplePlayer)] sampleRedirected).1
      ⟨1, by decide, by decide⟩,
   (receivePlayer_allocates_lowest 2 0 7 1 2 3
      [(0, samplePlayer), (1, samplePlayer)] sampleRedirected).2
      (by decide)⟩

/-! Properties of minute parsing (`parse_minutes`). -/

lemma parseNatDigits_append_nondigit (cs : List Char) (c : Char)
    (hc : c.isDigit = false) : parseNatDigits (cs ++ [c]) = none := by
  unfold parseNatDigits
  cases cs with
  | nil =>
    by_cases h : c = '+'
    · subst h; simp [dropPlus]
    · simp [dropPlus, h, hc]
  | cons a t =>
    by_cases h : a = '+'
    · subst h; simp [dropPlus, hc]
    · simp [dropPlus, h, hc]

lemma parseU32_append_nondigit (cs : List Char) (c : Char)
    (hc : c.isDigit = false) : parseU32 (cs ++ [c]) = none := by
  rw [parseU32, parseNatDigits_append_nondigit cs c hc]
  rfl

lemma stripSuffixChar_append_same (cs : List Char) (c : Char) :
    stripSuffixChar (cs ++ [c]) c = some cs := by
  simp [stripSuffixChar]

lemma stripSuffixChar_append_ne (cs : List Char) (c c' : Char)
    (h : ¬ c = c') : stripSuffixChar (cs ++ [c]) c' = none := by
  simp [stripSuffixChar, h]

lemma append_last_ne {cs l : List Char} {c : Char}
    (h : l.getLast? ≠ some c) : cs ++ [c] ≠ l := by
  intro heq
  exact h (heq ▸ (by simp))

/-- C6 counterexample: the claim predicts that an `h`-suffixed count whose
multiplication by 60 overflows `u32` saturates to `u32::MAX`
(4294967295); the code's `checked_mul` instead makes the whole parse
fail.  At `71582789h` (71582789 * 60 = 4294967340 > `u32::MAX`) the code
yields a parse failure, not `some 4294967295`. -/
theorem parseMinutes_overflow_counterexample :
    parseMinutes (String.toList "71582789h") = none ∧
    parseMinutes (String.toList "71582789h") ≠ some 4294967295 := by
  constructor
  · decide
  · decide

/-- C6 (amended): minute parsing yields 0 for `none`/`off`; `n` for a
bare `u32` literal or one with an `m` suffix; and for an `h` suffix,
`n * 60` when it fits in `u32` and a parse failure (not a saturated
value) on overflow; other strings (e.g. `banana`) fail to parse. -/
theorem parseMinutes_spec :
    (parseMinutes (String.toList "none") = some 0 ∧
      parseMinutes (String.toList "off") = some 0) ∧
    (∀ (cs : List Char) (n : Nat), parseU32 cs = some n →
      parseMinutes cs = some n) ∧
    (∀ (cs : List Char) (n : Nat), parseU32 cs = some n →
      parseMinutes (cs ++ ['m']) = some n) ∧
    (∀ (cs : List Char) (n : Nat), parseU32 cs = some n →
      parseMinutes (cs ++ ['h']) =
        (if n * 60 < 4294967296 then some (n * 60) else none)) ∧
    parseMinutes (String.toList "banana") = none := by
  refine ⟨⟨by decide, by decide⟩, ?_, ?_, ?_, by decide⟩
  · intro cs n h
    rw [parseMinutes]
    rw [if_neg, h]
    rintro (rfl | rfl)
    · have hev : parseU32 (String.toList "none") = none := by decide
      rw [hev] at h
      exact Option.noConfusion h
    · have hev : parseU32 (String.toList "off") = none := by decide
      rw [hev] at h
      exact Option.noConfusion h
  · intro cs n h
    rw [parseMinutes]
    rw [if_neg, parseU32_append_nondigit cs 'm' (by decide),
      stripSuffixChar_append_same, Option.some_bind, h]
    rintro (heq | heq)
    · exact append_last_ne (l := String.toList "none") (by decide) heq
    · exact append_last_ne (l := String.toList "off") (by decide) heq
  · intro cs n h
    rw [parseMinutes]
    rw [if_neg, parseU32_append_nondigit cs 'h' (by decide),
      stripSuffixChar_append_ne cs 'h' 'm' (by decide),
      stripSuffixChar_append_same, Option.some_bind, h]
    · rfl
    · rintro (heq | heq)
      · exact append_last_ne (l := String.toList "none") (by decide) heq
      · exact append_last_ne (l := String.toList "off") (by decide) heq

/-- Witness for C6: `2h` parses to 120 minutes via the general theorem. -/
theorem parseMinutes_spec_witness :
    parseU32 (String.toList "2") = some 2 ∧
    parseMinutes (String.toList "2" ++ ['h']) =
      (if 2 * 60 < 4294967296 then some (2 * 60) else none) :=
  ⟨by decide, parseMinutes_spec.2.2.2.1 (String.toList "2") 2 (by decide)⟩

/-! Properties of the redirection protocol (`send_player`). -/

/-- Whether `send_player_impl` accepts this status (the non-panicking
arms of its `match`): `Connected` or `Limbo`. -/
def ClientStatus.canSend : ClientStatus → Bool
  | .connected _ _ => true
  | .limbo _ => true
  | _ => false

/-- Whether the status is `Redirected`. -/
def ClientStatus.isRedirectedB : ClientStatus → Bool
  | .redirected _ _ _ _ _ _ => true
  | _ => false

lemma client?_withClient (p : Player) (c c' : PlayerClientData)
    (h : p.client? = some c) : (p.withClient c').client? = some c' := by
  cases hpi : p.inner <;>
    simp [Player.client?, Player.withClient, hpi] at h ⊢

lemma regulator_withClient (p : Player) (c' : PlayerClientData) :
    (p.withClient c').regulator = p.regulator := by
  cases hpi : p.inner <;> simp [Player.withClient, hpi]

lemma repoGet?_update_self (repo : PlayerRepo) (pid : PlayerId)
    (f : Player → Player) (p : Player) (h : repoGet? repo pid = some p) :
    repoGet? (repoUpdate repo pid f) pid = some (f p) := by
  induction repo with
  | nil => simp [repoGet?] at h
  | cons e t ih =>
    by_cases he : e.1 = pid
    · rw [repoGet?, List.find?_cons_of_pos _ (by simpa using he)] at h
      obtain rfl : e.2 = p := by simpa using h
      rw [repoUpdate, List.map_cons, if_pos he, repoGet?,
        List.find?_cons_of_pos _ (by simpa using he)]
      rfl
    · rw [repoGet?, List.find?_cons_of_neg _ (by simpa using he)] at h
      rw [repoUpdate, List.map_cons, if_neg he, repoGet?,
        List.find?_cons_of_neg _ (by simpa using he)]
      exact ih h

lemma sendPlayerImpl_some_of_canSend (limboMs now localRealmId : Nat)
    (repo : PlayerRepo) (pid serverId : Nat) (arenaQ : ArenaQuery) (g : Bool)
    (p : Player) (c : PlayerClientData) (hp : repoGet? repo pid = some p)
    (hc : p.client? = some c) (hsend : c.status.canSend = true) :
    ∃ observer active,
      sendPlayerImpl limboMs now localRealmId repo pid serverId arenaQ g =
        some (sendOutcome limboMs now localRealmId repo pid serverId arenaQ c
          observer active) := by
  cases hst : c.status with
  | connected o a =>
    exact ⟨some o, a, by simp only [sendPlayerImpl, hp, hc, hst]⟩
  | limbo e =>
    exact ⟨none, none, by simp only [sendPlayerImpl, hp, hc, hst]⟩
  | pending e => rw [hst] at hsend; simp [ClientStatus.canSend] at hsend
  | redirected e s i o a sc =>
    rw [hst] at hsend; simp [ClientStatus.canSend] at hsend
  | leavingLimbo => rw [hst] at hsend; simp [ClientStatus.canSend] at hsend

lemma sendPlayerImpl_none_of_not_canSend (limboMs now localRealmId : Nat)
    (repo : PlayerRepo) (pid serverId : Nat) (arenaQ : ArenaQuery) (g : Bool)
    (p : Player) (c : PlayerClientData) (hp : repoGet? repo pid = some p)
    (hc : p.client? = some c) (hsend : c.status.canSend = false) :
    sendPlayerImpl limboMs now localRealmId repo pid serverId arenaQ g =
      none := by
  cases hst : c.status with
  | connected o a => rw [hst] at hsend; simp [ClientStatus.canSend] at hsend
  | limbo e => rw [hst] at hsend; simp [ClientStatus.canSend] at hsend
  | pending e => simp only [sendPlayerImpl, hp, hc, hst]
  | redirected e s i o a sc => simp only [sendPlayerImpl, hp, hc, hst]
  | leavingLimbo => simp only [sendPlayerImpl, hp, hc, hst]

/-- C1: from `Connected` or `Limbo` with an active regulator,
`send_player` completes, returns a `RedirectedPlayer`, and leaves the
player's status `Redirected`; from `Pending`, `Redirected`, or
`LeavingLimbo` both `send_player_impl` and `send_player` panic; and after
a successful redirection a second redirection of the same player always
panics. -/
theorem sendPlayer_status_contract (limboMs now localRealmId : Nat)
    (repo : PlayerRepo) (pid serverId destRealmId : Nat) (p : Player)
    (c : PlayerClientData) (hp : repoGet? repo pid = some p)
    (hc : p.client? = some c) :
    (c.status.canSend = true → p.regulator.isActive = true →
      ∃ repo' rp,
        sendPlayer limboMs now localRealmId repo pid serverId destRealmId =
          some (repo', rp) ∧
        (∃ p' c', repoGet? repo' pid = some p' ∧ p'.client? = some c' ∧
          c'.status.isRedirectedB = true) ∧
        sendPlayer limboMs now localRealmId repo' pid serverId destRealmId =
          none ∧
        sendPlayerImpl limboMs now localRealmId repo' pid serverId
          (.specific destRealmId) true = none) ∧
    (c.status.canSend = false →
      sendPlayerImpl limboMs now localRealmId repo pid serverId
        (.specific destRealmId) true = none ∧
      sendPlayer limboMs now localRealmId repo pid serverId destRealmId =
        none) := by
  have hreg : ∀ q : Player,
      ({ q with regulator := q.regulator.leaveNow } : Player).client? =
        q.client? := fun _ => rfl
  constructor
  · intro hsend hact
    set p1 : Player := { p with regulator := p.regulator.leaveNow } with hp1def
    have hp1 : repoGet? (repoUpdate repo pid
        (fun q => { q with regulator := q.regulator.leaveNow })) pid =
        some p1 := repoGet?_update_self repo pid _ p hp
    have hc1 : p1.client? = some c := hc
    obtain ⟨obs, act, himpl⟩ := sendPlayerImpl_some_of_canSend limboMs now
      localRealmId _ pid serverId (.specific destRealmId) true p1 c hp1 hc1 hsend
    set c' : PlayerClientData := { c with
      status := ClientStatus.redirected (now + max limboMs 1000) serverId
        none obs act true,
      chat := redirectChat (.specific destRealmId) localRealmId c.chat }
      with hc'def
    have hsp : sendPlayer limboMs now localRealmId repo pid serverId destRealmId =
        some (repoSetClient (repoUpdate repo pid
            (fun q => { q with regulator := q.regulator.leaveNow })) pid c',
          ⟨pid, c.token, c.ipAddress, c.session,
            redirectChat (.specific destRealmId) localRealmId c.chat,
            c.metrics⟩) := by
      simp only [sendPlayer, hp]
      rw [if_neg (not_not_intro hact), himpl]
      rfl
    set repo2 := repoSetClient (repoUpdate repo pid
      (fun q => { q with regulator := q.regulator.leaveNow })) pid c'
      with hrepo2
    have hget2 : repoGet? repo2 pid = some (p1.withClient c') :=
      repoGet?_update_self _ pid _ p1 hp1
    have hcw : (p1.withClient c').client? = some c' :=
      client?_withClient p1 c c' hc1
    have hcs' : c'.status.canSend = false := rfl
    refine ⟨repo2, _, hsp, ⟨p1.withClient c', c', hget2, hcw, rfl⟩, ?_, ?_⟩
    · simp only [sendPlayer, hget2]
      rw [if_neg (by rw [regulator_withClient]; exact not_not_intro hact)]
      have hp3 : repoGet? (repoUpdate repo2 pid
          (fun q => { q with regulator := q.regulator.leaveNow })) pid =
          some { p1.withClient c' with
            regulator := (p1.withClient c').regulator.leaveNow } :=
        repoGet?_update_self _ pid _ _ hget2
      have hc3 : ({ p1.withClient c' with
          regulator := (p1.withClient c').regulator.leaveNow } : Player).client? =
          some c' := hcw
      exact sendPlayerImpl_none_of_not_canSend limboMs now localRealmId _
        pid serverId (.specific destRealmId) true _ c' hp3 hc3 hcs'
    · exact sendPlayerImpl_none_of_not_canSend limboMs now localRealmId repo2
        pid serverId (.specific destRealmId) true _ c' hget2 hcw hcs'
  · intro hsend
    have himpl := sendPlayerImpl_none_of_not_canSend limboMs now localRealmId
      repo pid serverId (.specific destRealmId) true p c hp hc hsend
    refine ⟨himpl, ?_⟩
    simp only [sendPlayer, hp]
    by_cases hact : p.regulator.isActive = true
    · rw [if_neg (not_not_intro hact)]
      have hp1 : repoGet? (repoUpdate repo pid
          (fun q => { q with regulator := q.regulator.leaveNow })) pid =
          some { p with regulator := p.regulator.leaveNow } :=
        repoGet?_update_self repo pid _ p hp
      have hc1 : ({ p with regulator := p.regulator.leaveNow } : Player).client? =
          some c := hc
      exact sendPlayerImpl_none_of_not_canSend limboMs now localRealmId _
        pid serverId (.specific destRealmId) true _ c hp1 hc1 hsend
    · rw [if_pos hact]

/-- Witness for C1: a concrete connected, active player is redirected
(status becomes `Redirected`), and a second redirection panics; a
concrete pending player cannot be sent at all. -/
theorem sendPlayer_status_contract_witness :
    (∃ repo' rp,
        sendPlayer 5000 100 1 [(0, samplePlayer)] 0 7 2 = some (repo', rp) ∧
        (∃ p' c', repoGet? repo' 0 = some p' ∧ p'.client? = some c' ∧
          c'.status.isRedirectedB = true) ∧
        sendPlayer 5000 100 1 repo' 0 7 2 = none ∧
        sendPlayerImpl 5000 100 1 repo' 0 7 (.specific 2) true = none) ∧
    (sendPlayerImpl 5000 100 1
        [(0, { samplePlayer with
          inner := .client { sampleClient with status := .pending 3 } })]
        0 7 (.specific 2) true = none ∧
     sendPlayer 5000 100 1
        [(0, { samplePlayer with
          inner := .client { sampleClient with status := .pending 3 } })]
        0 7 2 = none) :=
  ⟨(sendPlayer_status_contract 5000 100 1 [(0, samplePlayer)] 0 7 2
      samplePlayer sampleClient (by decide) (by decide)).1 (by decide) (by decide),
   (sendPlayer_status_contract 5000 100 1
      [(0, { samplePlayer with
        inner := .client { sampleClient with status := .pending 3 } })]
      0 7 2
      { samplePlayer with
        inner := .client { sampleClient with status := .pending 3 } }
      { sampleClient with status := .pending 3 }
      (by decide) (by decide)).2 (by decide)⟩

/-! Properties of mute and report caps. -/

/-- The muted-IP set of the client stored at `pid` (empty when absent). -/
def mutedOf (repo : PlayerRepo) (pid : PlayerId) : List Ip :=
  (((repoGet? repo pid).bind Player.client?).map
    (fun c => c.chat.muted)).getD []

/-- The reported-IP set of the client stored at `pid` (empty when
absent). -/
def reportedOf (repo : PlayerRepo) (pid : PlayerId) : List Ip :=
  (((repoGet? repo pid).bind Player.client?).map
    (fun c => c.reported)).getD []

lemma mutePlayer_bound (repo : PlayerRepo) (pid : PlayerId)
    (n : MessageNumber) (h : (mutedOf repo pid).length ≤ 32) :
    (mutedOf (mutePlayer repo pid n).1 pid).length ≤ 32 := by
  cases hattr : (senderAttribution repo pid n).map (fun a => a.senderIp) with
  | none => simp only [mutePlayer, hattr]; exact h
  | some ip =>
    cases hg : repoGet? repo pid with
    | none => simp only [mutePlayer, hattr, hg]; exact h
    | some p =>
      cases hcl : p.client? with
      | none => simp only [mutePlayer, hattr, hg, hcl]; exact h
      | some c =>
        by_cases h32 : 32 ≤ c.chat.muted.length
        · simp only [mutePlayer, hattr, hg, hcl, if_pos h32]; exact h
        · by_cases hmem : c.chat.muted.contains ip = true
          · simp only [mutePlayer, hattr, hg, hcl, if_neg h32, if_pos hmem]
            exact h
          · simp only [mutePlayer, hattr, hg, hcl, if_neg h32, if_neg hmem]
            have hget : repoGet? (repoSetClient repo pid
                { c with chat := { c.chat with muted := ip :: c.chat.muted } })
                pid = some (p.withClient
                { c with chat := { c.chat with muted := ip :: c.chat.muted } }) :=
              repoGet?_update_self repo pid _ p hg
            rw [mutedOf, hget, Option.some_bind,
              client?_withClient p c _ hcl]
            simp
            omega

lemma mutePlayer_cap_err (repo : PlayerRepo) (pid : PlayerId)
    (n : MessageNumber) (a : MessageAttribution) (p : Player)
    (c : PlayerClientData) (hattr : senderAttribution repo pid n = some a)
    (hg : repoGet? repo pid = some p) (hcl : p.client? = some c)
    (hlen : c.chat.muted.length = 32) :
    mutePlayer repo pid n = (repo, .error "too many muted") := by
  simp [mutePlayer, hattr, hg, hcl, hlen]

lemma reportedOf_eq (repo : PlayerRepo) (pid : PlayerId) (p : Player)
    (c : PlayerClientData) (hg : repoGet? repo pid = some p)
    (hcl : p.client? = some c) : reportedOf repo pid = c.reported := by
  rw [reportedOf, hg, Option.some_bind, hcl]
  rfl

lemma report_bound (dbg : Bool) (repo : PlayerRepo) (m : MetricsState)
    (pid : PlayerId) (n : MessageNumber)
    (h : (reportedOf repo pid).length ≤ 6) :
    (reportedOf (report dbg repo m pid n).1 pid).length ≤ 6 := by
  cases hattr : senderAttribution repo pid n with
  | none => simp only [report, hattr]; exact h
  | some a =>
    cases hg : repoGet? repo pid with
    | none => simp only [report, hattr, hg]; exact h
    | some p =>
      cases hcl : p.client? with
      | none => simp only [report, hattr, hg, hcl]; exact h
      | some c =>
        rw [reportedOf_eq repo pid p c hg hcl] at h
        by_cases hself : c.ipAddress = a.senderIp ∧ ¬(c.admin = true ∧ dbg = true)
        · simp only [report, hattr, hg, hcl, if_pos hself]
          rw [reportedOf_eq repo pid p c hg hcl]
          exact h
        · have hins : ∀ r : List Ip, r.length ≤ 6 →
              (reportedOf (repoSetClient repo pid { c with reported := r })
                pid).length ≤ 6 := by
            intro r hr
            have hget : repoGet? (repoSetClient repo pid
                { c with reported := r }) pid =
                some (p.withClient { c with reported := r }) :=
              repoGet?_update_self repo pid _ p hg
            rw [reportedOf, hget, Option.some_bind,
              client?_withClient p c _ hcl]
            simpa using hr
          by_cases hmod : c.moderator = true
          · simp only [report, hattr, hg, hcl, if_neg hself, hmod, if_true]
            exact hins c.reported h
          · rw [Bool.not_eq_true] at hmod
            by_cases halive :
                (p.aliveDurationMs.map (fun d => decide (d < 60000))).getD
                  true = true
            · simp only [report, hattr, hg, hcl, if_neg hself, hmod,
                Bool.false_eq_true, if_false, halive, if_true]
              rw [reportedOf_eq repo pid p c hg hcl]
              exact h
            · rw [Bool.not_eq_true] at halive
              by_cases h6 : 6 ≤ c.reported.length
              · simp only [report, hattr, hg, hcl, if_neg hself, hmod,
                  Bool.false_eq_true, if_false, halive, if_pos h6]
                rw [reportedOf_eq repo pid p c hg hcl]
                exact h
              · by_cases hmem : c.reported.contains a.senderIp = true
                · simp only [report, hattr, hg, hcl, if_neg hself, hmod,
                    Bool.false_eq_true, if_false, halive, if_neg h6,
                    hmem, if_true]
                  rw [reportedOf_eq repo pid p c hg hcl]
                  exact h
                · simp only [report, hattr, hg, hcl, if_neg hself, hmod,
                    Bool.false_eq_true, if_false, halive, if_neg h6, hmem]
                  exact hins (a.senderIp :: c.reported) (by simp; omega)

lemma report_cap_err (dbg : Bool) (repo : PlayerRepo) (m : MetricsState)
    (pid : PlayerId) (n : MessageNumber) (a : MessageAttribution)
    (p : Player) (c : PlayerClientData) (d : Nat)
    (hattr : senderAttribution repo pid n = some a)
    (hg : repoGet? repo pid = some p) (hcl : p.client? = some c)
    (hself : c.ipAddress ≠ a.senderIp) (hmod : c.moderator = false)
    (hdur : p.aliveDurationMs = some d) (hd : 60000 ≤ d)
    (hlen : c.reported.length = 6) :
    report dbg repo m pid n = (repo, m, [], .error "too many reports") := by
  have hdlt : ¬ d < 60000 := by omega
  simp [report, hattr, hg, hcl, hmod, hdur, hlen, hdlt, hself]

/-- C4: the muted-IP set never exceeds 32 entries and the reported-IP set
never exceeds 6: every `mute_player` and `report` call preserves the
bounds; with 32 IPs muted the 33rd distinct mute attempt returns
`too many muted`, with 6 IPs reported the 7th distinct report attempt
returns `too many reports`, and in both cases the state is returned
unchanged. -/
theorem muteReport_caps :
    (∀ repo pid n, (mutedOf repo pid).length ≤ 32 →
      (mutedOf (mutePlayer repo pid n).1 pid).length ≤ 32) ∧
    (∀ repo pid n a p c,
      senderAttribution repo pid n = some a →
      repoGet? repo pid = some p → p.client? = some c →
      c.chat.muted.length = 32 → c.chat.muted.contains a.senderIp = false →
      mutePlayer repo pid n = (repo, .error "too many muted")) ∧
    (∀ dbg repo m pid n, (reportedOf repo pid).length ≤ 6 →
      (reportedOf (report dbg repo m pid n).1 pid).length ≤ 6) ∧
    (∀ dbg repo m pid n a p c d,
      senderAttribution repo pid n = some a →
      repoGet? repo pid = some p → p.client? = some c →
      c.ipAddress ≠ a.senderIp → c.moderator = false →
      p.aliveDurationMs = some d → 60000 ≤ d →
      c.reported.length = 6 → c.reported.contains a.senderIp = false →
      report dbg repo m pid n = (repo, m, [], .error "too many reports")) :=
  ⟨fun repo pid n h => mutePlayer_bound repo pid n h,
   fun repo pid n a p c hattr hg hcl hlen _ =>
     mutePlayer_cap_err repo pid n a p c hattr hg hcl hlen,
   fun dbg repo m pid n h => report_bound dbg repo m pid n h,
   fun dbg repo m pid n a p c d hattr hg hcl hself hmod hdur hd hlen _ =>
     report_cap_err dbg repo m pid n a p c d hattr hg hcl hself hmod hdur hd
       hlen⟩

/-- A message with attribution (sender IP 77) sitting in an inbox, for
concrete instances. -/
def sampleMsg : MessageDto :=
  { pAlias := "bob", visitorId := none, teamName := none,
    authority := false, authentic := false, message := .raw "hi",
    whisper := false }

/-- An inbox holding one message attributed to IP 77. -/
def attributedInbox : ChatInbox := ⟨[(sampleMsg, some ⟨1, 77⟩)]⟩

/-- 32 distinct muted IPs. -/
def muted32 : List Ip := (List.range 32).map (fun i => 100 + i)

/-- A client whose mute set is full. -/
def fullMuteClient : PlayerClientData :=
  { sampleClient with chat :=
    { muted := muted32, inbox := attributedInbox, joinAnnounced := none } }

/-- A player whose mute set is full. -/
def fullMutePlayer : Player :=
  { samplePlayer with inner := .client fullMuteClient }

/-- A client whose report set is full. -/
def fullReportClient : PlayerClientData :=
  { sampleClient with
    chat := { muted := [], inbox := attributedInbox, joinAnnounced := none },
    reported := [1, 2, 3, 4, 5, 6] }

/-- A player whose report set is full. -/
def fullReportPlayer : Player :=
  { samplePlayer with inner := .client fullReportClient }

/-- Witness for C4: a concrete 33rd distinct mute attempt and a concrete
7th distinct report attempt are both rejected, leaving the state
unchanged. -/
theorem muteReport_caps_witness :
    mutePlayer [(0, fullMutePlayer)] 0 0 =
      ([(0, fullMutePlayer)], .error "too many muted") ∧
    report false [(0, fullReportPlayer)] ⟨0, 0⟩ 0 0 =
      ([(0, fullReportPlayer)], ⟨0, 0⟩, [], .error "too many reports") :=
  ⟨muteReport_caps.2.1 [(0, fullMutePlayer)] 0 0 ⟨1, 77⟩ fullMutePlayer
      fullMuteClient (by decide) (by decide) (by decide) (by decide)
      (by decide),
   muteReport_caps.2.2.2 false [(0, fullReportPlayer)] ⟨0, 0⟩ 0 0 ⟨1, 77⟩
      fullReportPlayer fullReportClient 120000 (by decide) (by decide)
      (by decide) (by decide) (by decide) (by decide) (by decide)
      (by decide) (by decide)⟩

/-! The report aliveness window. -/

/-- A non-moderator reporter with an attributed message in the inbox and
a known 120-second aliveness duration. -/
def reporterPlayer : Player :=
  { samplePlayer with inner := .client { sampleClient with chat :=
    { muted := [], inbox := attributedInbox, joinAnnounced := none } } }

/-- C3 counterexample: the claim says a non-moderator report succeeds
only while the reporter's aliveness duration is under 60 seconds and is
rejected outside that window.  The code does the opposite: a reporter
alive for 120 seconds succeeds, and one alive for 30 seconds is rejected
with `report requirements unmet`. -/
theorem report_window_counterexample :
    reporterPlayer.aliveDurationMs = some 120000 ∧
    ¬ 120000 < 60000 ∧
    (report false [(0, reporterPlayer)] ⟨0, 0⟩ 0 0).2.2.2 =
      .ok (.playerRestricted 0) ∧
    (report false [(0, { reporterPlayer with aliveDurationMs := some 30000 })]
        ⟨0, 0⟩ 0 0).2.2.2 = .error "report requirements unmet" :=
  ⟨rfl, by omega, by decide, by decide⟩

/-- C3 (amended): for a non-moderator client whose attribution resolves,
a report is rejected with a domain error — the repository, metrics and
request list returned unchanged/empty — whenever the reporter's aliveness
duration is unknown or under 60 seconds, and a report can succeed only
when the duration is known and at least 60 seconds. -/
theorem report_alive_window (dbg : Bool) (repo : PlayerRepo)
    (m : MetricsState) (pid : PlayerId) (n : MessageNumber)
    (a : MessageAttribution) (p : Player) (c : PlayerClientData)
    (hattr : senderAttribution repo pid n = some a)
    (hg : repoGet? repo pid = some p) (hcl : p.client? = some c)
    (hmod : c.moderator = false) :
    ((p.aliveDurationMs = none ∨
        (∃ d, p.aliveDurationMs = some d ∧ d < 60000)) →
      ∃ e, report dbg repo m pid n = (repo, m, [], .error e)) ∧
    (∀ u, (report dbg repo m pid n).2.2.2 = .ok u →
      ∃ d, p.aliveDurationMs = some d ∧ 60000 ≤ d) := by
  constructor
  · intro hdur
    by_cases hself : c.ipAddress = a.senderIp ∧ ¬(c.admin = true ∧ dbg = true)
    · exact ⟨"cannot restrict own IP",
        by simp only [report, hattr, hg, hcl, if_pos hself]⟩
    · have halive :
          (p.aliveDurationMs.map (fun d => decide (d < 60000))).getD true =
            true := by
        rcases hdur with hnone | ⟨d, hd, hlt⟩
        · rw [hnone]; rfl
        · rw [hd]; simpa using hlt
      exact ⟨"report requirements unmet", by
        simp only [report, hattr, hg, hcl, if_neg hself, hmod,
          Bool.false_eq_true, if_false, halive, if_true]⟩
  · intro u hok
    by_cases halive :
        (p.aliveDurationMs.map (fun d => decide (d < 60000))).getD true = true
    · exfalso
      by_cases hself : c.ipAddress = a.senderIp ∧ ¬(c.admin = true ∧ dbg = true)
      · simp only [report, hattr, hg, hcl, if_pos hself] at hok
        exact Except.noConfusion hok
      · simp only [report, hattr, hg, hcl, if_neg hself, hmod,
          Bool.false_eq_true, if_false, halive, if_true] at hok
        exact Except.noConfusion hok
    · rcases hdd : p.aliveDurationMs with _ | d
      · exact absurd (by rw [hdd]; rfl) halive
      · refine ⟨d, rfl, ?_⟩
        rw [hdd] at halive
        simp at halive
        omega

/-- Witness for C3: a concrete 30-second-alive non-moderator reporter is
rejected with a domain error and unchanged state, by the general
theorem. -/
theorem report_alive_window_witness :
    ∃ e, report false
        [(0, { reporterPlayer with aliveDurationMs := some 30000 })]
        ⟨0, 0⟩ 0 0 =
      ([(0, { reporterPlayer with aliveDurationMs := some 30000 })],
        ⟨0, 0⟩, [], .error e) :=
  (report_alive_window false
      [(0, { reporterPlayer with aliveDurationMs := some 30000 })]
      ⟨0, 0⟩ 0 0 ⟨1, 77⟩
      { reporterPlayer with aliveDurationMs := some 30000 }
      { sampleClient with chat :=
        { muted := [], inbox := attributedInbox, joinAnnounced := none } }
      (by decide) (by decide) (by decide) (by decide)).1
    (Or.inr ⟨30000, rfl, by omega⟩)

/-! Unconditional unmute. -/

/-- Replace the muted set of the client stored at `pid` (used to compare
runs that differ only in prior muted state). -/
def setMuted (repo : PlayerRepo) (pid : PlayerId) (m : List Ip) :
    PlayerRepo :=
  repoUpdate repo pid (fun p =>
    match p.client? with
    | some c => p.withClient { c with chat := { c.chat with muted := m } }
    | none => p)

lemma not_mem_filter_ne (l : List Ip) (ip : Ip) :
    ip ∉ l.filter (fun x => x != ip) := by
  intro hmem
  have := List.of_mem_filter hmem
  simp at this

lemma senderAttribution_eq (repo : PlayerRepo) (pid : PlayerId)
    (n : MessageNumber) (p : Player) (c : PlayerClientData)
    (hg : repoGet? repo pid = some p) (hcl : p.client? = some c) :
    senderAttribution repo pid n = c.chat.inbox.attribute n := by
  simp [senderAttribution, hg, hcl]

/-- C9: when the requester's attribution for message number `n` resolves,
`unmute_player` returns `Ok (Unmuted n)` whether or not the resolved IP
was previously muted (two runs differing only in the requester's prior
muted set produce the same result), and afterwards the IP is not in the
muted set. -/
theorem unmute_unconditional (repo : PlayerRepo) (pid : PlayerId)
    (n : MessageNumber) (a : MessageAttribution) (p : Player)
    (c : PlayerClientData)
    (hattr : senderAttribution repo pid n = some a)
    (hg : repoGet? repo pid = some p) (hcl : p.client? = some c) :
    (unmutePlayer repo pid n =
      (repoSetClient repo pid { c with chat := { c.chat with
          muted := c.chat.muted.filter (fun x => x != a.senderIp) } },
        .ok (.unmuted n)) ∧
      a.senderIp ∉ mutedOf (unmutePlayer repo pid n).1 pid) ∧
    (∀ m₁ m₂ : List Ip,
      (unmutePlayer (setMuted repo pid m₁) pid n).2 =
        (unmutePlayer (setMuted repo pid m₂) pid n).2) := by
  have hmain : unmutePlayer repo pid n =
      (repoSetClient repo pid { c with chat := { c.chat with
          muted := c.chat.muted.filter (fun x => x != a.senderIp) } },
        .ok (.unmuted n)) := by
    simp only [unmutePlayer, hattr, Option.map_some', hg, hcl]
  refine ⟨⟨hmain, ?_⟩, ?_⟩
  · rw [hmain]
    have hget : repoGet? (repoSetClient repo pid
        { c with chat := { c.chat with
          muted := c.chat.muted.filter (fun x => x != a.senderIp) } }) pid =
        some (p.withClient { c with chat := { c.chat with
          muted := c.chat.muted.filter (fun x => x != a.senderIp) } }) :=
      repoGet?_update_self repo pid _ p hg
    rw [mutedOf, hget, Option.some_bind, client?_withClient p c _ hcl]
    exact not_mem_filter_ne c.chat.muted a.senderIp
  · intro m₁ m₂
    have key : ∀ m : List Ip,
        (unmutePlayer (setMuted repo pid m) pid n).2 = .ok (.unmuted n) := by
      intro m
      have hg' : repoGet? (setMuted repo pid m) pid =
          some (p.withClient
            { c with chat := { c.chat with muted := m } }) := by
        have h0 := repoGet?_update_self repo pid
          (fun q => match q.client? with
            | some c0 =>
              q.withClient { c0 with chat := { c0.chat with muted := m } }
            | none => q) p hg
        simp only [hcl] at h0
        exact h0
      have hcl' : (p.withClient
          { c with chat := { c.chat with muted := m } }).client? =
          some { c with chat := { c.chat with muted := m } } :=
        client?_withClient p c _ hcl
      have hattr' : senderAttribution (setMuted repo pid m) pid n = some a := by
        rw [senderAttribution_eq _ pid n _ _ hg' hcl']
        rw [← senderAttribution_eq repo pid n p c hg hcl]
        exact hattr
      simp only [unmutePlayer, hattr', Option.map_some', hg', hcl']
    rw [key m₁, key m₂]

/-- Witness for C9: a concrete unmute resolves and returns
`Ok (Unmuted 0)`, the IP is afterwards unmuted, and runs starting with
the IP muted versus unmuted return the same result. -/
theorem unmute_unconditional_witness :
    (unmutePlayer [(0, reporterPlayer)] 0 0).2 = .ok (.unmuted 0) ∧
    77 ∉ mutedOf (unmutePlayer [(0, reporterPlayer)] 0 0).1 0 ∧
    (unmutePlayer (setMuted [(0, reporterPlayer)] 0 [77]) 0 0).2 =
      (unmutePlayer (setMuted [(0, reporterPlayer)] 0 []) 0 0).2 := by
  have h := unmute_unconditional [(0, reporterPlayer)] 0 0 ⟨1, 77⟩
    reporterPlayer
    { sampleClient with chat :=
      { muted := [], inbox := attributedInbox, joinAnnounced := none } }
    (by decide) (by decide) (by decide)
  refine ⟨?_, h.1.2, h.2 [77] []⟩
  rw [h.1.1]

/-! Strictly increasing chat timestamps. -/

lemma chatTimestamps_chain (clocks : List Nat) :
    ∀ last : Nat,
      (∀ t ∈ chatTimestamps last clocks, last < t) ∧
      List.Chain' (· < ·) (chatTimestamps last clocks) := by
  induction clocks with
  | nil => intro last; simp [chatTimestamps]
  | cons now rest ih =>
    intro last
    have hlt : last < nextTimestamp now last :=
      lt_of_lt_of_le (Nat.lt_succ_self last) (Nat.le_max_right now (last + 1))
    obtain ⟨ih1, ih2⟩ := ih (nextTimestamp now last)
    constructor
    · intro t ht
      rw [chatTimestamps] at ht
      rcases List.mem_cons.mp ht with rfl | hmem
      · exact hlt
      · exact lt_trans hlt (ih1 t hmem)
    · rw [chatTimestamps]
      refine List.chain'_cons'.mpr ⟨?_, ih2⟩
      intro b hb
      exact ih1 b (List.mem_of_mem_head? hb)

/-- C5: every chat send by a client-backed active sender that reports
`Sent` stores `max(now, last_timestamp + 1)` as the new `last_timestamp`
(which is also the assigned timestamp), and consequently the sequence of
timestamps assigned across any sequence of sends is strictly increasing,
even when the wall clock stalls or repeats. -/
theorem chat_timestamp_monotone :
    (∀ dbg hooks now arenaRealmId reqPid message whisper0 repo settings
        botsCount lastTimestamp metrics p,
      repoGet? repo reqPid = some p → p.regulator.isActive = true →
      p.client?.isSome = true →
      (sendChat dbg hooks now arenaRealmId reqPid message whisper0 repo
          settings botsCount lastTimestamp metrics).result = .ok .sent →
      (sendChat dbg hooks now arenaRealmId reqPid message whisper0 repo
          settings botsCount lastTimestamp metrics).lastTimestamp =
        nextTimestamp now lastTimestamp) ∧
    (∀ lastTimestamp clocks,
      (∀ t ∈ chatTimestamps lastTimestamp clocks, lastTimestamp < t) ∧
      List.Chain' (· < ·) (chatTimestamps lastTimestamp clocks)) := by
  constructor
  · intro dbg hooks now arenaRealmId reqPid message whisper0 repo settings
      botsCount lastTimestamp metrics p hg hact hclsome _hok
    cases hcl : p.client? with
    | none => rw [hcl] at hclsome; exact absurd hclsome (by simp)
    | some c =>
      cases htec : tryExecuteCommand dbg hooks arenaRealmId reqPid message p
          botsCount settings with
      | some trio =>
        obtain ⟨text, settings', cmdReqs⟩ := trio
        simp only [sendChat, hg, if_neg (not_not_intro hact), htec, hcl]
      | none =>
        by_cases hwt : (whisper0 || hooks.forceWhisper reqPid) = true ∧
            hooks.teamMembers reqPid = none
        · exfalso
          simp only [sendChat, hg, if_neg (not_not_intro hact), htec,
            if_pos hwt] at _hok
          exact Except.noConfusion _hok
        · simp only [sendChat, hg, if_neg (not_not_intro hact), htec,
            if_neg hwt, hcl]
  · intro lastTimestamp clocks
    exact chatTimestamps_chain clocks lastTimestamp

/-- Witness for C5: a concrete send with the clock behind the stored
timestamp still advances the stored timestamp to
`max(now, last + 1)`, and the timestamps of a stalled clock are strictly
increasing. -/
theorem chat_timestamp_monotone_witness :
    (sendChat false sampleHooks 1000 1 0 (String.toList "hello") false
        [(0, samplePlayer)] ⟨none, none⟩ 0 500 ⟨0, 0⟩).lastTimestamp =
      nextTimestamp 1000 500 ∧
    (∀ t ∈ chatTimestamps 7 [5, 5, 5], 7 < t) ∧
    List.Chain' (· < ·) (chatTimestamps 7 [5, 5, 5]) :=
  ⟨chat_timestamp_monotone.1 false sampleHooks 1000 1 0
      (String.toList "hello") false [(0, samplePlayer)] ⟨none, none⟩ 0 500
      ⟨0, 0⟩ samplePlayer (by decide) (by decide) (by decide) (by decide),
   (chat_timestamp_monotone.2 7 [5, 5, 5]).1,
   (chat_timestamp_monotone.2 7 [5, 5, 5]).2⟩

/-! Delivery of unattributed messages and the sender's own copy. -/

lemma repoGet?_mapEntries (tier : PlayerRepo)
    (f : PlayerId → Player → Player) (pid : PlayerId) (p : Player)
    (h : repoGet? tier pid = some p) :
    repoGet? (tier.map (fun e => (e.1, f e.1 e.2))) pid = some (f pid p) := by
  induction tier with
  | nil => simp [repoGet?] at h
  | cons e t ih =>
    by_cases he : e.1 = pid
    · rw [repoGet?, List.find?_cons_of_pos _ (by simpa using he)] at h
      obtain rfl : e.2 = p := by simpa using h
      rw [List.map_cons, repoGet?,
        List.find?_cons_of_pos _ (by simpa using he)]
      simp [he]
    · rw [repoGet?, List.find?_cons_of_neg _ (by simpa using he)] at h
      rw [List.map_cons, repoGet?,
        List.find?_cons_of_neg _ (by simpa using he)]
      exact ih h

/-- C10: `ClientChatData::receive` with no attribution always writes the
message to the inbox regardless of the muted set, and
`broadcast_message` strips the attribution on the sender's own copy, so
after a broadcast the sender's own inbox contains the message even when
the sender's own IP is in its muted set. -/
theorem receive_unattributed_delivered :
    (∀ (chat : ClientChatData) (m : MessageDto),
      chat.receive m none =
        { chat with inbox := chat.inbox.write m none }) ∧
    (∀ msg attribution (tiers : List PlayerRepo) senderPid saveRecent recent,
      (broadcastMessage msg attribution tiers senderPid saveRecent
          recent).1 = tiers.map (broadcastTier msg attribution senderPid)) ∧
    (∀ msg attribution (tier : PlayerRepo) (pid : PlayerId) (p : Player)
        (c : PlayerClientData),
      repoGet? tier pid = some p → p.client? = some c →
      repoGet? (broadcastTier msg attribution (some pid) tier) pid =
        some (p.withClient { c with chat := { c.chat with
          inbox := c.chat.inbox.write msg none } })) := by
  have hrecv : ∀ (chat : ClientChatData) (m : MessageDto),
      chat.receive m none =
        { chat with inbox := chat.inbox.write m none } :=
    fun _ _ => rfl
  refine ⟨hrecv, fun _ _ _ _ _ _ => rfl, ?_⟩
  intro msg attribution tier pid p c hg hcl
  have hmap := repoGet?_mapEntries tier
    (broadcastRecv msg attribution (some pid)) pid p hg
  rw [broadcastTier, hmap]
  have hfilt : attribution.filter
      (fun _ => decide (some pid ≠ some pid)) = none := by
    cases attribution <;> simp [Option.filter]
  simp only [broadcastRecv, hcl, hfilt, hrecv]

/-- A sender that has muted its own IP (10). -/
def selfMutedPlayer : Player :=
  { samplePlayer with inner := .client { sampleClient with chat :=
    { muted := [10], inbox := ⟨[]⟩, joinAnnounced := none } } }

/-- Witness for C10: broadcasting a message attributed to the sender's
own (muted) IP still lands in the sender's inbox, because the sender's
copy is delivered without attribution. -/
theorem receive_unattributed_delivered_witness :
    repoGet? (broadcastTier sampleMsg (some ⟨1, 10⟩) (some 0)
        [(0, selfMutedPlayer)]) 0 =
      some (selfMutedPlayer.withClient
        { sampleClient with chat :=
          { muted := [10],
            inbox := ChatInbox.write ⟨[]⟩ sampleMsg none,
            joinAnnounced := none } }) :=
  receive_unattributed_delivered.2.2 sampleMsg (some ⟨1, 10⟩)
    [(0, selfMutedPlayer)] 0 selfMutedPlayer
    { sampleClient with chat :=
      { muted := [10], inbox := ⟨[]⟩, joinAnnounced := none } }
    (by decide) (by decide)

/-! The slash-command path of `send_chat`. -/

/-- The inbox entries of the client stored at `pid` (empty when absent). -/
def inboxOf (repo : PlayerRepo) (pid : PlayerId) :
    List (MessageDto × Option MessageAttribution) :=
  (((repoGet? repo pid).bind Player.client?).map
    (fun c => c.chat.inbox.entries)).getD []

/-- C7 counterexample: the claim quantifies over every message beginning
with `/`, but the message consisting of `/` alone has no command word, so
`try_execute_command` declines it and `send_chat` performs an ordinary
broadcast send: the call reports `Sent`, yet the text is broadcast (the
emitted request's recipient is `Broadcast`, not `None`) and no system
reply is injected into the sender's inbox (which stays empty). -/
theorem sendChat_slash_counterexample :
    (sendChat false sampleHooks 1000 1 0 (String.toList "/") false
        [(0, samplePlayer)] ⟨none, none⟩ 0 500 ⟨0, 0⟩).result = .ok .sent ∧
    (sendChat false sampleHooks 1000 1 0 (String.toList "/") false
        [(0, samplePlayer)] ⟨none, none⟩ 0 500 ⟨0, 0⟩).reqs =
      [PlasmaReq.sendChatReq ChatRecipient.broadcast 1000
        (String.toList "/") 10 (some 9) "alice" true] ∧
    inboxOf (sendChat false sampleHooks 1000 1 0 (String.toList "/") false
        [(0, samplePlayer)] ⟨none, none⟩ 0 500 ⟨0, 0⟩).repo 0 = [] := by
  refine ⟨by decide, by decide, by decide⟩

/-- C7 (amended): for every active client-backed sender and every message
`/` followed by at least one whitespace-separated word, `send_chat`
executes the command, emits the literal text only in a `SendChat` request
whose recipient is `None` (so the command text is not broadcast to other
players), injects the authoritative reply carrying the command's textual
outcome into the sender's own inbox, and returns `Ok Sent` regardless of
the command's own success. -/
theorem sendChat_command_reply (dbg : Bool) (hooks : GameHooks)
    (now arenaRealmId : Nat) (reqPid : PlayerId) (rest : List Char)
    (whisper0 : Bool) (repo : PlayerRepo) (settings : SettingsDto)
    (botsCount lastTimestamp : Nat) (metrics : MetricsState) (p : Player)
    (c : PlayerClientData) (hg : repoGet? repo reqPid = some p)
    (hact : p.regulator.isActive = true) (hcl : p.client? = some c)
    (hword : splitAsciiWhitespace rest ≠ []) :
    ∃ text settings' cmdReqs,
      tryExecuteCommand dbg hooks arenaRealmId reqPid ('/' :: rest) p
          botsCount settings = some (text, settings', cmdReqs) ∧
      sendChat dbg hooks now arenaRealmId reqPid ('/' :: rest) whisper0 repo
          settings botsCount lastTimestamp metrics =
        ⟨repoSetClient repo reqPid { c with chat := (c.chat.receive
            (commandReply text (whisper0 || hooks.forceWhisper reqPid)) none) },
          settings', nextTimestamp now lastTimestamp,
          { metrics with chats := metrics.chats + 1 },
          cmdReqs ++ [PlasmaReq.sendChatReq ChatRecipient.none
            (nextTimestamp now lastTimestamp) ('/' :: rest) c.ipAddress
            c.session.visitorId p.pAlias (authenticFor c p)],
          .ok .sent⟩ ∧
      repoGet? (sendChat dbg hooks now arenaRealmId reqPid ('/' :: rest)
          whisper0 repo settings botsCount lastTimestamp metrics).repo
          reqPid =
        some (p.withClient { c with chat := { c.chat with
          inbox := (c.chat.inbox.write
            (commandReply text (whisper0 || hooks.forceWhisper reqPid))
            none) } }) := by
  obtain ⟨first, args, hsplit⟩ :
      ∃ first args, splitAsciiWhitespace rest = first :: args := by
    cases hs : splitAsciiWhitespace rest with
    | nil => exact absurd hs hword
    | cons first args => exact ⟨first, args, rfl⟩
  obtain ⟨trio, htec0⟩ :
      ∃ trio, tryExecuteCommand dbg hooks arenaRealmId reqPid ('/' :: rest) p
        botsCount settings = some trio := by
    simp only [tryExecuteCommand, hsplit]
    exact ⟨_, rfl⟩
  obtain ⟨text, settings', cmdReqs⟩ := trio
  have htec := htec0
  have heq : sendChat dbg hooks now arenaRealmId reqPid ('/' :: rest)
      whisper0 repo settings botsCount lastTimestamp metrics =
      ⟨repoSetClient repo reqPid { c with chat := (c.chat.receive
          (commandReply text (whisper0 || hooks.forceWhisper reqPid)) none) },
        settings', nextTimestamp now lastTimestamp,
        { metrics with chats := metrics.chats + 1 },
        cmdReqs ++ [PlasmaReq.sendChatReq ChatRecipient.none
          (nextTimestamp now lastTimestamp) ('/' :: rest) c.ipAddress
          c.session.visitorId p.pAlias (authenticFor c p)],
        .ok .sent⟩ := by
    simp only [sendChat, hg, if_neg (not_not_intro hact), htec, hcl,
      Option.isSome_some, if_true]
  refine ⟨text, settings', cmdReqs, htec, heq, ?_⟩
  rw [heq]
  have hget : repoGet? (repoSetClient repo reqPid
      { c with chat := (c.chat.receive
        (commandReply text (whisper0 || hooks.forceWhisper reqPid)) none) })
      reqPid =
      some (p.withClient { c with chat := (c.chat.receive
        (commandReply text (whisper0 || hooks.forceWhisper reqPid)) none) }) :=
    repoGet?_update_self repo reqPid _ p hg
  exact hget

/-- Witness for C7: a non-moderator sending `/safe 10` still gets
`Ok Sent` from the overall operation. -/
theorem sendChat_command_reply_witness :
    (sendChat false sampleHooks 1000 1 0 ('/' :: String.toList "safe 10")
        false [(0, samplePlayer)] ⟨none, none⟩ 0 500 ⟨0, 0⟩).result =
      .ok .sent := by
  obtain ⟨text, settings', cmdReqs, htec, heq, hget⟩ :=
    sendChat_command_reply false sampleHooks 1000 1 0
      (String.toList "safe 10") false [(0, samplePlayer)] ⟨none, none⟩ 0 500
      ⟨0, 0⟩ samplePlayer sampleClient (by decide) (by decide) (by decide)
      (by decide)
  rw [heq]

/-! Settings bounds and the `/bots` command. -/

/-- C8: `set_settings` stores bot aggression as `None` when the input is
NaN and otherwise clamped into `[0, 10]`; a stored bot count never
exceeds the hard ceiling (1024 in release builds, 64 under
`debug_assertions`); in a release build the `/bots` command from an admin
client rejects a count above the ceiling with an `error` reply leaving
the settings unchanged, and `/bots default` resets the count to unset. -/
theorem settings_bounds :
    (∀ dbg pub minT maxT (s : SettingsDto), s.botAggression = some F32.nan →
      (setSettings dbg pub minT maxT s).botAggression = none) ∧
    (∀ dbg pub minT maxT (s : SettingsDto) (q : Rat),
      s.botAggression = some (F32.val q) →
      (setSettings dbg pub minT maxT s).botAggression =
        some (F32.val (min (max q 0) 10)) ∧
      0 ≤ min (max q 0) 10 ∧ min (max q 0) 10 ≤ 10) ∧
    (∀ dbg pub minT maxT (s : SettingsDto) (b : Nat),
      (setSettings dbg pub minT maxT s).bots = some b → b ≤ hardMax dbg) ∧
    (hardMax false = 1024 ∧ hardMax true = 64) ∧
    (∀ (hooks : GameHooks) realmId reqPid rest (p : Player)
        (c : PlayerClientData) settings botsCount arg k,
      p.client? = some c → c.admin = true →
      splitAsciiWhitespace rest = [String.toList "bots", arg] →
      parseU16 arg = some k → 1024 < k →
      tryExecuteCommand false hooks realmId reqPid ('/' :: rest) p botsCount
        settings = some ("error", settings, [])) ∧
    (∀ (hooks : GameHooks) realmId reqPid rest (p : Player)
        (c : PlayerClientData) settings botsCount,
      p.client? = some c → c.admin = true →
      splitAsciiWhitespace rest =
        [String.toList "bots", String.toList "default"] →
      tryExecuteCommand false hooks realmId reqPid ('/' :: rest) p botsCount
        settings = some ("OK", { settings with bots := none }, [])) := by
  refine ⟨?_, ?_, ?_, ⟨rfl, rfl⟩, ?_, ?_⟩
  · intro dbg pub minT maxT s h
    simp [setSettings, h, Option.filter, F32.isNanB]
  · intro dbg pub minT maxT s q h
    refine ⟨by simp [setSettings, h, Option.filter, F32.isNanB, F32.clampTo], ?_, ?_⟩
    · exact le_min (le_max_right q 0) (by norm_num)
    · exact min_le_right _ _
  · intro dbg pub minT maxT s b h
    cases hb : s.bots with
    | none => rw [setSettings] at h; simp [hb] at h
    | some b0 =>
      rw [setSettings] at h
      simp only [hb, Option.map_some'] at h
      obtain rfl : _ = b := Option.some.inj h
      exact Nat.min_le_right _ _
  · intro hooks realmId reqPid rest p c settings botsCount arg k hcl hadm
      hsplit hparse hk
    have hknot : ¬ k ≤ hardMax false := by simp [hardMax]; omega
    have hargne : ¬ arg = String.toList "default" := by
      intro harg
      rw [harg] at hparse
      have : parseU16 (String.toList "default") = none := by decide
      rw [this] at hparse
      exact Option.noConfusion hparse
    simp only [tryExecuteCommand, hsplit]
    rw [if_neg (by decide), if_neg (by decide), if_pos trivial]
    simp only [hcl, hadm, List.head?, hparse, Option.some_bind,
      if_neg hknot, if_neg hargne]
    simp
  · intro hooks realmId reqPid rest p c settings botsCount hcl hadm hsplit
    simp only [tryExecuteCommand, hsplit]
    rw [if_neg (by decide), if_neg (by decide), if_pos trivial]
    have hdefparse : parseU16 (String.toList "default") = none := by decide
    simp only [hcl, hadm, List.head?, hdefparse, Option.none_bind, if_pos rfl]
    simp

/-- Witness for C8: `/bots 2000` in a release build from an admin yields
`error` and leaves the settings unchanged; `/bots default` resets the
count to unset. -/
theorem settings_bounds_witness :
    tryExecuteCommand false sampleHooks 1 0
        ('/' :: String.toList "bots 2000")
        { samplePlayer with inner := .client { sampleClient with session :=
          { sampleSession with adminB := true } } }
        0 ⟨some 5, none⟩ = some ("error", ⟨some 5, none⟩, []) ∧
    tryExecuteCommand false sampleHooks 1 0
        ('/' :: String.toList "bots default")
        { samplePlayer with inner := .client { sampleClient with session :=
          { sampleSession with adminB := true } } }
        0 ⟨some 5, none⟩ = some ("OK", ⟨none, none⟩, []) :=
  ⟨settings_bounds.2.2.2.2.1 sampleHooks 1 0 (String.toList "bots 2000")
      { samplePlayer with inner := .client { sampleClient with session :=
        { sampleSession with adminB := true } } }
      { sampleClient with session := { sampleSession with adminB := true } }
      ⟨some 5, none⟩ 0 (String.toList "2000") 2000 (by decide) (by decide)
      (by decide) (by decide) (by decide),
   settings_bounds.2.2.2.2.2 sampleHooks 1 0 (String.toList "bots default")
      { samplePlayer with inner := .client { sampleClient with session :=
        { sampleSession with adminB := true } } }
      { sampleClient with session := { sampleSession with adminB := true } }
      ⟨some 5, none⟩ 0 (by decide) (by decide) (by decide)⟩

end Kodiak
